import Mathlib

/-!
Verification development for the iRacing TypeScript SDK core
(`src/iracingApi.ts`, class `iRacingSDK`): the chunked-response resolver
(`handleChunkedResponse`), the dispatching executor (`requestWithChunking`),
the rate-limit delay computed inside `request`, and the credential hashing
performed by `authenticate`.

The embedding is shallow: the dynamic JS response objects are modelled by
explicit structures carrying exactly the fields the code inspects, with
`Option` for possibly-absent fields and explicit truthiness helpers matching
JS semantics.  Network effects are modelled by passing the transport as a
function from URL to fetch outcome and returning, next to the result, the
trace of URLs fetched, in order.  Record payloads are an arbitrary type `α`;
opaque JSON content that the code never inspects is an arbitrary type `β`.
-/

deriving instance DecidableEq for Except

namespace IracingSDK

/-- JS truthiness of a possibly-absent string field
(`undefined` and `""` are falsy). -/
def truthyStr : Option String → Bool
  | some s => !s.isEmpty
  | none => false

/-- JS truthiness of the check `xs && xs.length > 0` on a possibly-absent
array field. -/
def truthyList : Option (List String) → Bool
  | some l => !l.isEmpty
  | none => false

/-- JS string coercion of a possibly-absent string inside a template
literal: an absent field prints as `"undefined"`. -/
def jsStr : Option String → String
  | some s => s
  | none => "undefined"

/-- The `chunk_info` object as the code reads it (`base_download_url`,
`total_chunks`, `num_chunks`, `rows`, `chunk_file_name`,
`chunk_file_names`); every field may be absent. -/
structure ChunkInfo where
  base_download_url : Option String
  total_chunks : Option Nat
  num_chunks : Option Nat
  rows : Option Nat
  chunk_file_name : Option String
  chunk_file_names : Option (List String)
deriving DecidableEq, Repr

/-- The shape of a nested `response.data` object (`search_series_results`
style): its own `chunk_info`, its `data` record array, and all other fields
(preserved verbatim by the object spread), collapsed into `rest`. -/
structure NestedData (α β : Type) where
  chunk_info : Option ChunkInfo
  data : List α
  rest : β
deriving DecidableEq, Repr

/-- The `data` field of a raw response: either a plain record array (whose
`.chunk_info` member is `undefined`, hence falsy) or a nested object. -/
inductive DataField (α β : Type) where
  | records : List α → DataField α β
  | nested : NestedData α β → DataField α β
deriving DecidableEq, Repr

/-- A decoded raw response as the resolver inspects it: optional `link`,
optional top-level `chunk_info`, optional `data` field, and all other
fields (preserved verbatim by the object spread) collapsed into `rest`. -/
structure Response (α β : Type) where
  link : Option String
  chunk_info : Option ChunkInfo
  data : Option (DataField α β)
  rest : β
deriving DecidableEq, Repr

/-- The value `handleChunkedResponse` can produce: raw CSV text, an opaque
JSON value fetched from a direct link, a nested data object, or a
(possibly rewritten) top-level response object. -/
inductive ResolvedResult (α β : Type) where
  | text : String → ResolvedResult α β
  | json : β → ResolvedResult α β
  | nestedObj : NestedData α β → ResolvedResult α β
  | respObj : Response α β → ResolvedResult α β
deriving DecidableEq, Repr

/-- Errors surfaced by the modelled code paths: a thrown
`HTTP error!`/`Failed to fetch` on a non-success status, a propagated
transport exception, the `TypeError` of dereferencing an absent field, and
the zod validation error thrown by `authenticate`. -/
inductive SdkError where
  | http : Nat → SdkError
  | netExn : SdkError
  | typeError : SdkError
  | validation : SdkError
deriving DecidableEq, Repr

/-- An HTTP response as the transport adapter delivers it.  The body
accessors the code awaits (`text()`, `json()`) are modelled as total
fields: `jsonArr` is the body parsed as a record array (what chunk-file
fetches consume), `jsonVal` the body as an opaque JSON value (what the
direct-link fetch consumes). -/
structure HttpResp (α β : Type) where
  ok : Bool
  status : Nat
  contentType : Option String
  textBody : String
  jsonArr : List α
  jsonVal : β
deriving DecidableEq, Repr

/-- Outcome of one transport call: a delivered response, or a thrown
transport exception. -/
inductive FetchOutcome (α β : Type) where
  | exn : FetchOutcome α β
  | resp : HttpResp α β → FetchOutcome α β
deriving DecidableEq, Repr

/-- The transport capability: URL to outcome. -/
def Net (α β : Type) := String → FetchOutcome α β

/-- Whether a list starts with a given pattern. -/
def startsWithL (p l : List Char) : Bool :=
  decide (l.take p.length = p)

/-- Whether `pat` occurs as a contiguous substring of `hay`
(JS `String.prototype.includes`). -/
def containsSub (hay pat : List Char) : Bool :=
  match hay with
  | [] => startsWithL pat []
  | _ :: t => startsWithL pat hay || containsSub t pat

/-- The check `contentType && contentType.includes('text/csv')`. -/
def ctHasCsv : Option String → Bool
  | some ct => containsSub ct.data "text/csv".data
  | none => false

/-- Whether a fetch outcome is a failure in the sense the resolver treats
as fatal on named fetches: a thrown exception or a non-`ok` response. -/
def isFetchFail : FetchOutcome α β → Bool
  | .exn => true
  | .resp h => !h.ok

/-- The records contributed by one fetch outcome in the lenient
(index-derived) loop: the parsed array on success, nothing on a skipped
failure. -/
def fetchedRecords : FetchOutcome α β → List α
  | .exn => []
  | .resp h => if h.ok then h.jsonArr else []

/-- `\w` of the extension-stripping regex. -/
def isWordChar (c : Char) : Bool :=
  c.isAlphanum || c = '_'

/-- `s.replace(/\.\w+$/, '')`: strip a final `.`‑plus‑word‑characters
extension, if present, from the configured base name. -/
def stripExt (s : String) : String :=
  let r := s.data.reverse
  let w := r.takeWhile isWordChar
  match r.drop w.length with
  | '.' :: rest => if w.isEmpty then s else ⟨rest.reverse⟩
  | _ => s

/-- The index-derived chunk file name of the fallback branch:
`` `${chunkInfo.chunk_file_name.replace(/\.\w+$/, '')}_${i}.json` ``. -/
def indexedChunkName (s : String) (i : Nat) : String :=
  stripExt s ++ "_" ++ toString i ++ ".json"

/-- List concatenation of the images of `f`, in order. -/
def flatMapL (f : γ → List δ) : List γ → List δ
  | [] => []
  | x :: xs => f x ++ flatMapL f xs

/-- The strict named-chunk fetch loop shared by the nested strategy and the
legacy named-list branch: fetch `base ++ name` for each name in list order,
concatenating parsed arrays; a thrown fetch or a non-`ok` status aborts
with an error.  Also returns the URLs fetched, in order. -/
def fetchNamedChunks (net : Net α β) (base : String) :
    List String → Except SdkError (List α) × List String
  | [] => (.ok [], [])
  | name :: rest =>
    let url := base ++ name
    match net url with
    | .exn => (.error .netExn, [url])
    | .resp h =>
      if h.ok then
        let (r, t) := fetchNamedChunks net base rest
        (r.map (fun c => h.jsonArr ++ c), url :: t)
      else (.error (.http h.status), [url])

/-- The lenient index-derived fetch loop of the legacy fallback branch,
iterating `count` indices starting at `i`.  Each iteration first
dereferences `chunk_file_name` outside the per-chunk `try` (a `TypeError`
when the field is absent), then fetches the derived URL inside the `try`:
exceptions and non-`ok` statuses are logged and skipped. -/
def fetchIndexedFrom (net : Net α β) (base : String) (nameOpt : Option String)
    (i : Nat) : Nat → Except SdkError (List α) × List String
  | 0 => (.ok [], [])
  | count + 1 =>
    match nameOpt with
    | none => (.error .typeError, [])
    | some s =>
      let url := base ++ indexedChunkName s i
      let (r, t) := fetchIndexedFrom net base nameOpt (i + 1) count
      match net url with
      | .exn => (r, url :: t)
      | .resp h =>
        if h.ok then (r.map (fun c => h.jsonArr ++ c), url :: t)
        else (r, url :: t)

/-- `response.data && response.data.chunk_info`: the response's `data`
field is an object carrying a `chunk_info`. -/
def hasNestedChunkInfo (r : Response α β) : Bool :=
  match r.data with
  | some (.nested nd) => nd.chunk_info.isSome
  | _ => false

/-- Strategy 1 (lines 194–216): direct `link` fetch.  Non-`ok` is fatal;
a CSV content type returns the raw text body; otherwise the JSON body is
returned directly. -/
def handleLink (net : Net α β) (url : String) :
    Except SdkError (ResolvedResult α β) × List String :=
  match net url with
  | .exn => (.error .netExn, [url])
  | .resp h =>
    if !h.ok then (.error (.http h.status), [url])
    else if ctHasCsv h.contentType then (.ok (.text h.textBody), [url])
    else (.ok (.json h.jsonVal), [url])

/-- Strategy 2 (lines 219–259): nested `data.chunk_info`.  Empty-set
short-circuit on `num_chunks === 0 || rows === 0`; otherwise fetch a
non-empty `chunk_file_names` list strictly, replacing only the `data`
sub-field; otherwise return the nested object untouched. -/
def handleNested (net : Net α β) (nd : NestedData α β) (ci : ChunkInfo) :
    Except SdkError (ResolvedResult α β) × List String :=
  if ci.num_chunks = some 0 || ci.rows = some 0 then
    (.ok (.nestedObj nd), [])
  else if truthyList ci.chunk_file_names then
    match fetchNamedChunks net (jsStr ci.base_download_url) (ci.chunk_file_names.getD []) with
    | (.error e, t) => (.error e, t)
    | (.ok chunks, t) => (.ok (.nestedObj { nd with data := chunks }), t)
  else
    (.ok (.nestedObj nd), [])

/-- Strategy 3/4 (lines 261–335): legacy top-level `chunk_info` (single
file, named list, or index-derived fallback), or pass-through when no
`chunk_info` is present. -/
def handleLegacy (net : Net α β) (r : Response α β) :
    Except SdkError (ResolvedResult α β) × List String :=
  match r.chunk_info with
  | none => (.ok (.respObj r), [])
  | some ci =>
    let base := jsStr ci.base_download_url
    if truthyStr ci.chunk_file_name && ci.total_chunks = some 1 then
      let url := base ++ jsStr ci.chunk_file_name
      match net url with
      | .exn => (.error .netExn, [url])
      | .resp h =>
        if !h.ok then (.error (.http h.status), [url])
        else (.ok (.respObj { r with data := some (.records h.jsonArr) }), [url])
    else if truthyList ci.chunk_file_names then
      match fetchNamedChunks net base (ci.chunk_file_names.getD []) with
      | (.error e, t) => (.error e, t)
      | (.ok chunks, t) =>
        (.ok (.respObj { r with data := some (.records chunks) }), t)
    else
      match fetchIndexedFrom net base ci.chunk_file_name 0 (ci.total_chunks.getD 0) with
      | (.error e, t) => (.error e, t)
      | (.ok chunks, t) =>
        (.ok (.respObj { r with data := some (.records chunks) }), t)

/-- `handleChunkedResponse` (lines 192–335): ordered strategy dispatch,
first match wins.  Returns the resolution outcome and the trace of URLs
fetched, in order. -/
def handleChunkedResponse (net : Net α β) (r : Response α β) :
    Except SdkError (ResolvedResult α β) × List String :=
  if truthyStr r.link && r.chunk_info.isNone then
    handleLink net (jsStr r.link)
  else
    match r.data with
    | some (.nested nd) =>
      match nd.chunk_info with
      | some ci => handleNested net nd ci
      | none => handleLegacy net r
    | _ => handleLegacy net r

/-- `requestWithChunking` (lines 346–361), modelled from the point where
the initial request has been performed and decoded to `r`: resolve the
per-call override against the client-wide flag, and hand the response to
the resolver exactly when chunk handling is on and the response has a
top-level `chunk_info` or `link`; otherwise return the decoded body
directly (no further fetches). -/
def requestWithChunking (net : Net α β) (autoFlag : Bool)
    (handleChunks : Option Bool) (r : Response α β) :
    Except SdkError (ResolvedResult α β) × List String :=
  let shouldHandleChunks := handleChunks.getD autoFlag
  if shouldHandleChunks && (r.chunk_info.isSome || truthyStr r.link) then
    handleChunkedResponse net r
  else
    (.ok (.respObj r), [])

/-- Whether a resolution outcome is an error (the call throws). -/
def isErrorResult (x : Except SdkError (ResolvedResult α β)) : Bool :=
  match x with
  | .error _ => true
  | .ok _ => false

/-- The rate-limit delay computed after each request (lines 97–119) from
the numeric values of the `x-ratelimit-remaining` and `x-ratelimit-reset`
headers (`none` = header absent) and the current time in ms: when
`remaining` is present and ≤ 1 and `reset` is present, wait
`reset*1000 - now` ms if that is positive; otherwise no wait. -/
def rateLimitDelay (remaining reset : Option Int) (now : Int) : Option Int :=
  match remaining, reset with
  | some rem, some rst =>
    if rem ≤ 1 then
      let waitMs := rst * 1000 - now
      if waitMs > 0 then some waitMs else none
    else none
  | _, _ => none


/-- Modelled from the spec (§4.5): the spec's dispatch condition — "the raw
response exhibits a `link` or `chunk_info` field (at top level or nested
under `data`)".  Stated here only to compare the spec's wording with the
dispatch the code performs. -/
def specExhibitsChunkField (r : Response α β) : Bool :=
  truthyStr r.link || r.chunk_info.isSome || hasNestedChunkInfo r

/-- Truncation to a 32-bit word. -/
def w32 (n : Nat) : Nat := n % 4294967296

/-- 32-bit modular addition. -/
def add32 (a b : Nat) : Nat := (a + b) % 4294967296

/-- 32-bit right rotation. -/
def rotr (n x : Nat) : Nat :=
  w32 ((x >>> n) ||| (x <<< (32 - n)))

/-- SHA-256 `Ch`. -/
def shaCh (x y z : Nat) : Nat := (x &&& y) ^^^ ((x ^^^ 4294967295) &&& z)

/-- SHA-256 `Maj`. -/
def shaMaj (x y z : Nat) : Nat := (x &&& y) ^^^ (x &&& z) ^^^ (y &&& z)

/-- SHA-256 `Σ0`. -/
def bigSigma0 (x : Nat) : Nat := rotr 2 x ^^^ rotr 13 x ^^^ rotr 22 x

/-- SHA-256 `Σ1`. -/
def bigSigma1 (x : Nat) : Nat := rotr 6 x ^^^ rotr 11 x ^^^ rotr 25 x

/-- SHA-256 `σ0`. -/
def smallSigma0 (x : Nat) : Nat := rotr 7 x ^^^ rotr 18 x ^^^ (x >>> 3)

/-- SHA-256 `σ1`. -/
def smallSigma1 (x : Nat) : Nat := rotr 17 x ^^^ rotr 19 x ^^^ (x >>> 10)

/-- The SHA-256 round constants. -/
def shaK : List Nat :=
  [1116352408, 1899447441, 3049323471, 3921009573, 961987163,
   1508970993, 2453635748, 2870763221, 3624381080, 310598401,
   607225278, 1426881987, 1925078388, 2162078206, 2614888103,
   3248222580, 3835390401, 4022224774, 264347078, 604807628,
   770255983, 1249150122, 1555081692, 1996064986, 2554220882,
   2821834349, 2952996808, 3210313671, 3336571891, 3584528711,
   113926993, 338241895, 666307205, 773529912, 1294757372,
   1396182291, 1695183700, 1986661051, 2177026350, 2456956037,
   2730485921, 2820302411, 3259730800, 3345764771, 3516065817,
   3600352804, 4094571909, 275423344, 430227734, 506948616,
   659060556, 883997877, 958139571, 1322822218, 1537002063,
   1747873779, 1955562222, 2024104815, 2227730452, 2361852424,
   2428436474, 2756734187, 3204031479, 3329325298]

/-- The SHA-256 initial hash state. -/
def shaH0 : List Nat :=
  [1779033703, 3144134277, 1013904242,
   2773480762, 1359893119, 2600822924,
   528734635, 1541459225]

/-- Big-endian 8-byte encoding. -/
def be64 (n : Nat) : List Nat :=
  [(n >>> 56) % 256, (n >>> 48) % 256, (n >>> 40) % 256, (n >>> 32) % 256,
   (n >>> 24) % 256, (n >>> 16) % 256, (n >>> 8) % 256, n % 256]

/-- Big-endian 4-byte encoding of a 32-bit word. -/
def be32 (n : Nat) : List Nat :=
  [(n >>> 24) % 256, (n >>> 16) % 256, (n >>> 8) % 256, n % 256]

/-- SHA-256 message padding: append `0x80`, zero-pad to 56 mod 64 bytes,
append the big-endian 64-bit bit length. -/
def padMessage (msg : List Nat) : List Nat :=
  let len := msg.length
  let padZeros := (119 - len % 64) % 64
  msg ++ [0x80] ++ List.replicate padZeros 0 ++ be64 (len * 8)

/-- Group bytes into big-endian 32-bit words. -/
def toWords : List Nat → List Nat
  | b0 :: b1 :: b2 :: b3 :: rest =>
    (b0 * 16777216 + b1 * 65536 + b2 * 256 + b3) :: toWords rest
  | _ => []

/-- Extend the 16-word block schedule by `fuel` additional words. -/
def extendWords (ws : List Nat) : Nat → List Nat
  | 0 => ws
  | fuel + 1 =>
    let t := ws.length
    let w := add32 (add32 (smallSigma1 (ws.getD (t - 2) 0)) (ws.getD (t - 7) 0))
      (add32 (smallSigma0 (ws.getD (t - 15) 0)) (ws.getD (t - 16) 0))
    extendWords (ws ++ [w]) fuel

/-- One SHA-256 compression round on the 8-word working state. -/
def shaRound (st : List Nat) (k w : Nat) : List Nat :=
  match st with
  | [a, b, c, d, e, f, g, h] =>
    let t1 := add32 h (add32 (bigSigma1 e) (add32 (shaCh e f g) (add32 k w)))
    let t2 := add32 (bigSigma0 a) (shaMaj a b c)
    [add32 t1 t2, a, b, c, add32 d t1, e, f, g]
  | _ => st

/-- Compress one 64-byte block into the hash state. -/
def compressBlock (hs : List Nat) (block : List Nat) : List Nat :=
  let ws := extendWords (toWords block) 48
  let st := (shaK.zip ws).foldl (fun s kw => shaRound s kw.1 kw.2) hs
  List.zipWith add32 hs st

/-- Fold the compression over 64-byte blocks (fuel-driven recursion so the
function reduces in the kernel). -/
def processBlocks (hs : List Nat) (bytes : List Nat) : Nat → List Nat
  | 0 => hs
  | fuel + 1 =>
    match bytes with
    | [] => hs
    | bs => processBlocks (compressBlock hs (bs.take 64)) (bs.drop 64) fuel

/-- SHA-256 of a byte list, as a 32-byte digest.  Modelled from the spec
(§4.1): the `crypto` digest primitive called by `authenticate` is not part
of this repository; this is the canonical SHA-256 it names. -/
def sha256 (msg : List Nat) : List Nat :=
  let padded := padMessage msg
  flatMapL be32 (processBlocks shaH0 padded (padded.length + 1))

/-- The standard base64 alphabet. -/
def base64Chars : List Char :=
  "ABCDEFGHIJKLMNOPQRSTUVWXYZabcdefghijklmnopqrstuvwxyz0123456789+/".data

/-- One base64 digit. -/
def b64char (n : Nat) : Char := base64Chars.getD n 'A'

/-- Base64 of a byte list as characters, with `=` padding. -/
def b64core : List Nat → List Char
  | a :: b :: c :: rest =>
    let n := a * 65536 + b * 256 + c
    b64char (n >>> 18) :: b64char ((n >>> 12) % 64) :: b64char ((n >>> 6) % 64) ::
      b64char (n % 64) :: b64core rest
  | [a, b] =>
    let n := a * 65536 + b * 256
    [b64char (n >>> 18), b64char ((n >>> 12) % 64), b64char ((n >>> 6) % 64), '=']
  | [a] =>
    let n := a * 65536
    [b64char (n >>> 18), b64char ((n >>> 12) % 64), '=', '=']
  | [] => []

/-- Base64 encoding of a byte list (`Buffer.toString('base64')` / `btoa`). -/
def base64Encode (bs : List Nat) : String := ⟨b64core bs⟩

/-- UTF-8 encoding of one Unicode scalar value. -/
def utf8EncodeCharBytes (c : Char) : List Nat :=
  let n := c.toNat
  if n < 128 then [n]
  else if n < 2048 then [192 + n / 64, 128 + n % 64]
  else if n < 65536 then [224 + n / 4096, 128 + (n / 64) % 64, 128 + n % 64]
  else [240 + n / 262144, 128 + (n / 4096) % 64, 128 + (n / 64) % 64, 128 + n % 64]

/-- UTF-8 bytes of a string (`TextEncoder().encode`). -/
def utf8Bytes (s : String) : List Nat :=
  flatMapL utf8EncodeCharBytes s.data

/-- ASCII case lowering of one character, as
`String.prototype.toLowerCase` acts on ASCII input. -/
def jsLowerChar (c : Char) : Char :=
  if 'A' ≤ c && c ≤ 'Z' then Char.ofNat (c.toNat + 32) else c

/-- `email.toLowerCase()`, restricted to its ASCII behaviour. -/
def jsToLowerCase (s : String) : String := ⟨s.data.map jsLowerChar⟩

/-- The credential hash computed by `authenticate` (lines 135–151):
base64 of the SHA-256 digest of the UTF-8 bytes of
`password ++ email.toLowerCase()`. -/
def authHash (password email : String) : String :=
  base64Encode (sha256 (utf8Bytes (password ++ jsToLowerCase email)))

/-- The `AuthRequest` input of `authenticate`. -/
structure AuthRequest where
  email : String
  password : String
deriving DecidableEq, Repr

/-- The pre-network phase of `authenticate` (lines 131–158): validate the
request with the zod schema (whose email validity check is the abstract
parameter `validEmail`), throwing a validation error before any network
call on failure; otherwise lower-case the email, hash the credentials, and
issue exactly one POST to the auth endpoint, whose body fields
(lower-cased email, base64 digest) are returned here together with the
trace of network calls made. -/
def authenticate (validEmail : String → Bool) (baseUrl : String)
    (req : AuthRequest) : Except SdkError (String × String) × List String :=
  if validEmail req.email = false then (.error .validation, [])
  else
    let email := jsToLowerCase req.email
    (.ok (email, authHash req.password req.email), [baseUrl ++ "/auth"])

/-- Fixture: a chunk descriptor for a nested-strategy response with two
named chunk files. -/
def ciNested : ChunkInfo :=
  ⟨some "http://s3/", none, some 2, some 5, none, some ["a.json", "b.json"]⟩

/-- Fixture: the nested `data` object carrying `ciNested`. -/
def ndNested : NestedData Nat String := ⟨some ciNested, [], "inner"⟩

/-- Fixture: a response whose only chunk marker is the nested
`data.chunk_info`. -/
def rNestedOnly : Response Nat String := ⟨none, none, some (.nested ndNested), "outer"⟩

/-- Fixture: a transport serving `a.json` ↦ `[1, 2]` and `b.json` ↦ `[3]`. -/
def netAB : Net Nat String := fun u =>
  if u = "http://s3/a.json" then
    .resp ⟨true, 200, some "application/json", "", [1, 2], "j"⟩
  else if u = "http://s3/b.json" then
    .resp ⟨true, 200, some "application/json", "", [3], "j"⟩
  else .exn

/-- Fixture: a response with a top-level `chunk_info` naming two chunk
files. -/
def rTopNamed : Response Nat String :=
  ⟨none, some ciNested, some (.records []), "outer"⟩

end IracingSDK

namespace IracingSDK

section Lemmas

variable {α β : Type}

/-- If every named fetch succeeds, the strict loop returns the in-order
concatenation of the parsed arrays and the in-order URL trace. -/
lemma fetchNamedChunks_allOk (net : Net α β) (base : String) :
    ∀ names : List String,
      (∀ nm ∈ names, isFetchFail (net (base ++ nm)) = false) →
      fetchNamedChunks net base names =
        (.ok (flatMapL (fun nm => fetchedRecords (net (base ++ nm))) names),
         names.map (fun nm => base ++ nm)) := by
  intro names
  induction names with
  | nil => intro _; rfl
  | cons nm ns ih =>
    intro h
    have hn := h nm (List.mem_cons_self _ _)
    cases hnet : net (base ++ nm) with
    | exn => rw [hnet] at hn; simp [isFetchFail] at hn
    | resp hr =>
      rw [hnet] at hn
      have hok : hr.ok = true := by
        simpa [isFetchFail] using hn
      have ihr := ih (fun x hx => h x (List.mem_cons_of_mem _ hx))
      simp [fetchNamedChunks, hnet, hok, ihr, flatMapL, fetchedRecords, Except.map]

/-- If any named fetch fails, the strict loop returns an error. -/
lemma fetchNamedChunks_fail (net : Net α β) (base : String) :
    ∀ names : List String,
      (∃ nm ∈ names, isFetchFail (net (base ++ nm)) = true) →
      ∃ e t, fetchNamedChunks net base names = (.error e, t) := by
  intro names
  induction names with
  | nil => rintro ⟨nm, hmem, _⟩; cases hmem
  | cons nm ns ih =>
    rintro ⟨x, hmem, hxfail⟩
    cases hnet : net (base ++ nm) with
    | exn => exact ⟨.netExn, [base ++ nm], by simp [fetchNamedChunks, hnet]⟩
    | resp hr =>
      by_cases hok : hr.ok = true
      · rcases List.mem_cons.mp hmem with hx | hx
        · subst hx; rw [hnet] at hxfail; simp [isFetchFail, hok] at hxfail
        · obtain ⟨e, t, ht⟩ := ih ⟨x, hx, hxfail⟩
          refine ⟨e, (base ++ nm) :: t, ?_⟩
          simp [fetchNamedChunks, hnet, hok, ht, Except.map]
      · refine ⟨.http hr.status, [base ++ nm], ?_⟩
        simp [fetchNamedChunks, hnet, hok]

/-- Closed form of the lenient index-derived loop when the base name is
present: every derived URL is attempted, failures contribute nothing, and
successes are concatenated in index order. -/
lemma fetchIndexedFrom_closed (net : Net α β) (base : String) (s : String) :
    ∀ (count i : Nat),
      fetchIndexedFrom net base (some s) i count =
        (.ok (flatMapL (fun j => fetchedRecords (net (base ++ indexedChunkName s j)))
            (List.range' i count)),
         (List.range' i count).map (fun j => base ++ indexedChunkName s j)) := by
  intro count
  induction count with
  | zero => intro i; rfl
  | succ k ih =>
    intro i
    cases hnet : net (base ++ indexedChunkName s i) with
    | exn =>
      simp [fetchIndexedFrom, hnet, ih (i + 1), List.range'_succ, flatMapL, fetchedRecords]
    | resp hr =>
      by_cases hok : hr.ok = true
      · simp [fetchIndexedFrom, hnet, hok, ih (i + 1), List.range'_succ, flatMapL,
          fetchedRecords, Except.map]
      · simp [fetchIndexedFrom, hnet, hok, ih (i + 1), List.range'_succ, flatMapL,
          fetchedRecords, Except.map]

/-- When the first-strategy guard fails and the `data` field carries no
nested `chunk_info`, resolution is the legacy top-level handler. -/
lemma resolve_eq_legacy (net : Net α β) (r : Response α β)
    (hb1 : (truthyStr r.link && r.chunk_info.isNone) = false)
    (hnn : hasNestedChunkInfo r = false) :
    handleChunkedResponse net r = handleLegacy net r := by
  unfold handleChunkedResponse
  rw [hb1]
  simp only [Bool.false_eq_true, if_false]
  cases hd : r.data with
  | none => rfl
  | some df =>
    cases df with
    | records l => rfl
    | nested nd =>
      have hnd : nd.chunk_info = none := by
        unfold hasNestedChunkInfo at hnn
        rw [hd] at hnn
        simpa using hnn
      simp [hnd]

/-- When the response has no truthy `link` and its `data` field carries a
`chunk_info`, resolution is the nested handler. -/
lemma resolve_eq_nested (net : Net α β) (r : Response α β) (nd : NestedData α β)
    (ci : ChunkInfo) (hl : truthyStr r.link = false)
    (hd : r.data = some (.nested nd)) (hci : nd.chunk_info = some ci) :
    handleChunkedResponse net r = handleNested net nd ci := by
  unfold handleChunkedResponse
  rw [hl, hd]
  simp [hci]

end Lemmas

end IracingSDK

namespace IracingSDK

/-- Fixture: a chunk descriptor with a top-level named list of three chunk
files and no single-file name. -/
def ciNamed3 : ChunkInfo :=
  ⟨some "http://s3/", some 3, none, none, none, some ["a.json", "b.json", "c.json"]⟩

/-- Fixture: a response routed to the legacy named-list branch over
`ciNamed3`. -/
def rNamed3 : Response Nat String := ⟨none, some ciNamed3, some (.records []), "t"⟩

/-- Fixture: a transport where the second of the three named chunk fetches
returns HTTP 500 and the others succeed. -/
def netBFails : Net Nat String := fun u =>
  if u = "http://s3/a.json" then .resp ⟨true, 200, none, "", [1, 2], "j"⟩
  else if u = "http://s3/b.json" then .resp ⟨false, 500, none, "", [], "j"⟩
  else if u = "http://s3/c.json" then .resp ⟨true, 200, none, "", [3], "j"⟩
  else .exn

/-- Fixture: a chunk descriptor with `total_chunks = 3`, a configured base
name and no file-name list (index-derived fallback). -/
def ciIdx3 : ChunkInfo :=
  ⟨some "http://s3/", some 3, none, none, some "results.json", none⟩

/-- Fixture: a response routed to the index-derived fallback over
`ciIdx3`. -/
def rIdx3 : Response Nat String := ⟨none, some ciIdx3, none, "t"⟩

/-- Fixture: a transport where the second indexed chunk fetch fails with
HTTP 500 and the first and third succeed. -/
def netIdxFails : Net Nat String := fun u =>
  if u = "http://s3/results_0.json" then .resp ⟨true, 200, none, "", [1, 2], "j"⟩
  else if u = "http://s3/results_1.json" then .resp ⟨false, 500, none, "", [7], "j"⟩
  else if u = "http://s3/results_2.json" then .resp ⟨true, 200, none, "", [5], "j"⟩
  else .exn

/-- Fixture: a chunk descriptor with `total_chunks = 2` but neither a
file-name list nor a configured base name. -/
def ciNoName : ChunkInfo := ⟨some "http://s3/", some 2, none, none, none, none⟩

/-- Fixture: a response routed to the fallback with no base name. -/
def rNoName : Response Nat String := ⟨none, some ciNoName, none, "t"⟩

/-- Fixture: a chunk descriptor with zero rows under the nested strategy. -/
def ciZeroRows : ChunkInfo :=
  ⟨some "http://s3/", none, some 3, some 0, none, some ["a.json"]⟩

/-- Fixture: the nested data object carrying `ciZeroRows`. -/
def ndZeroRows : NestedData Nat String := ⟨some ciZeroRows, [], "inner"⟩

/-- Fixture: a response whose nested chunk descriptor reports zero rows. -/
def rZeroRows : Response Nat String := ⟨none, none, some (.nested ndZeroRows), "outer"⟩

/-- Fixture: a plain payload: no link, no chunk_info anywhere. -/
def rPlain : Response Nat String := ⟨none, none, some (.records [4, 5]), "t"⟩

/-- Fixture: a link-only response. -/
def rLinkOnly : Response Nat String := ⟨some "http://s3/file", none, none, "t"⟩

/-- Fixture: a transport serving the link target as CSV text. -/
def netCsv : Net Nat String := fun u =>
  if u = "http://s3/file" then .resp ⟨true, 200, some "text/csv; charset=utf-8", "a,b\n1,2", [], "j"⟩
  else .exn

/-- Fixture: a concrete email validity check (non-empty string), standing
in for the zod schema's validator in witnesses. -/
def emailNonEmpty : String → Bool := fun s => !s.isEmpty

end IracingSDK

namespace IracingSDK

section ClaimTheorems

variable {α β : Type}

/-- C1 (counterexample): the claim as stated is false — a response whose
only chunk marker is `chunk_info` nested under `data` is *not* handed to
the resolver by `requestWithChunking`, even with chunk handling enabled:
the decoded body is returned directly, while the resolver would have
produced a different (materialized) result. -/
theorem requestWithChunking_nested_not_handed_to_resolver :
    specExhibitsChunkField rNestedOnly = true ∧
    requestWithChunking netAB true none rNestedOnly = (.ok (.respObj rNestedOnly), []) ∧
    handleChunkedResponse netAB rNestedOnly ≠ (.ok (.respObj rNestedOnly), []) := by
  decide

/-- C1 (amended): chunk resolution is invoked exactly when chunk handling
is enabled (per-call override defaulting to the client-wide flag) and the
raw response exhibits a *top-level* `link` or `chunk_info` field: every
such response is handed to the resolver, and every other response — even
one whose `data` field nests a `chunk_info` — is returned directly with no
further fetches. -/
theorem requestWithChunking_dispatch (net : Net α β) (autoFlag : Bool)
    (handleChunks : Option Bool) (r : Response α β) :
    ((handleChunks.getD autoFlag && (r.chunk_info.isSome || truthyStr r.link)) = true →
      requestWithChunking net autoFlag handleChunks r = handleChunkedResponse net r)
  ∧ ((handleChunks.getD autoFlag && (r.chunk_info.isSome || truthyStr r.link)) = false →
      requestWithChunking net autoFlag handleChunks r = (.ok (.respObj r), [])) := by
  constructor <;> intro h <;> simp [requestWithChunking, h]

/-- Witness for the amended C1: a top-level `chunk_info` response is
dispatched to the resolver; a nested-only response is returned directly. -/
theorem requestWithChunking_dispatch_witness :
    (requestWithChunking netAB true none rTopNamed = handleChunkedResponse netAB rTopNamed)
  ∧ (requestWithChunking netAB true none rNestedOnly = (.ok (.respObj rNestedOnly), [])) :=
  ⟨(requestWithChunking_dispatch netAB true none rTopNamed).1 (by decide),
   (requestWithChunking_dispatch netAB true none rNestedOnly).2 (by decide)⟩

/-- C2: in the legacy named-list branch (top-level `chunk_info` with a
non-empty `chunk_file_names`), a failed fetch of any named chunk aborts
the whole resolution with an error: no partial result is ever returned. -/
theorem legacyNamed_failure_aborts (net : Net α β) (r : Response α β)
    (ci : ChunkInfo) (names : List String)
    (hci : r.chunk_info = some ci)
    (hnn : hasNestedChunkInfo r = false)
    (hsingle : (truthyStr ci.chunk_file_name && ci.total_chunks = some 1) = false)
    (hnames : ci.chunk_file_names = some names)
    (hne : names ≠ [])
    (hfail : ∃ nm ∈ names, isFetchFail (net (jsStr ci.base_download_url ++ nm)) = true) :
    isErrorResult (handleChunkedResponse net r).1 = true := by
  have hb1 : (truthyStr r.link && r.chunk_info.isNone) = false := by
    simp [hci]
  rw [resolve_eq_legacy net r hb1 hnn]
  unfold handleLegacy
  rw [hci]
  simp only [hsingle, Bool.false_eq_true, if_false]
  have htl : truthyList ci.chunk_file_names = true := by
    simp [truthyList, hnames, hne]
  simp only [htl, if_true]
  obtain ⟨e, t, ht⟩ := fetchNamedChunks_fail net (jsStr ci.base_download_url) names hfail
  rw [hnames]
  simp only [Option.getD_some]
  rw [ht]
  simp [isErrorResult]

/-- Witness for C2: three named files with the second fetch failing —
resolution fails entirely. -/
theorem legacyNamed_failure_aborts_witness :
    (∃ nm ∈ ["a.json", "b.json", "c.json"],
      isFetchFail (netBFails ("http://s3/" ++ nm)) = true) ∧
    isErrorResult (handleChunkedResponse netBFails rNamed3).1 = true :=
  ⟨by decide,
   legacyNamed_failure_aborts netBFails rNamed3 ciNamed3 ["a.json", "b.json", "c.json"]
     rfl rfl (by decide) rfl (by decide) (by decide)⟩

/-- C3: in the legacy index-derived fallback (no file-name list), chunk
file names are derived as the base name with its extension stripped plus
`_{i}.json` for every `i` in `[0, total_chunks)`; every derived URL is
attempted, an individual failure is skipped rather than fatal, and the
final `data` is the in-order concatenation of the chunks that succeeded. -/
theorem legacyIndexed_lenient (net : Net α β) (r : Response α β)
    (ci : ChunkInfo) (s : String) (n : Nat)
    (hci : r.chunk_info = some ci)
    (hnn : hasNestedChunkInfo r = false)
    (hsingle : (truthyStr ci.chunk_file_name && ci.total_chunks = some 1) = false)
    (hnames : truthyList ci.chunk_file_names = false)
    (hname : ci.chunk_file_name = some s)
    (htot : ci.total_chunks = some n) :
    handleChunkedResponse net r =
      (.ok (.respObj { r with data := some (.records (flatMapL (fun i =>
          fetchedRecords (net (jsStr ci.base_download_url ++ indexedChunkName s i)))
          (List.range n))) }),
       (List.range n).map (fun i => jsStr ci.base_download_url ++ indexedChunkName s i)) := by
  have hb1 : (truthyStr r.link && r.chunk_info.isNone) = false := by
    simp [hci]
  rw [resolve_eq_legacy net r hb1 hnn]
  unfold handleLegacy
  rw [hci]
  simp only [hsingle, Bool.false_eq_true, if_false, hnames]
  rw [hname, htot]
  simp only [Option.getD_some]
  rw [fetchIndexedFrom_closed net (jsStr ci.base_download_url) s n 0]
  rw [← List.range_eq_range']

/-- Witness for C3: `total_chunks = 3`, base name `results.json`, the
second indexed fetch fails: `data = parse(results_0) ++ parse(results_2)`
and all three derived URLs were attempted in order. -/
theorem legacyIndexed_lenient_witness :
    ciIdx3.chunk_file_name = some "results.json" ∧
    ciIdx3.total_chunks = some 3 ∧
    handleChunkedResponse netIdxFails rIdx3 =
      (.ok (.respObj ⟨none, some ciIdx3, some (.records [1, 2, 5]), "t"⟩),
       ["http://s3/results_0.json", "http://s3/results_1.json", "http://s3/results_2.json"]) :=
  ⟨rfl, rfl,
   (legacyIndexed_lenient netIdxFails rIdx3 ciIdx3 "results.json" 3
      rfl rfl (by decide) rfl rfl rfl).trans (by decide)⟩

/-- C4: for every non-empty `chunk_file_names` list, fetches occur
strictly in list order against `base_download_url ++ name`, and when all
succeed the resulting `data` is the concatenation of the parsed chunk
arrays in fetch order (each chunk's records verbatim, no dedup, no sort);
the returned value is the nested `data` object (strategy 2) or the
original response (legacy named branch) with only its `data` field
replaced and `chunk_info` preserved. -/
theorem namedChunks_order_and_concat :
    (∀ (net : Net α β) (r : Response α β) (nd : NestedData α β) (ci : ChunkInfo)
        (names : List String),
      truthyStr r.link = false →
      r.data = some (.nested nd) →
      nd.chunk_info = some ci →
      (ci.num_chunks = some 0 || ci.rows = some 0) = false →
      ci.chunk_file_names = some names →
      names ≠ [] →
      (∀ nm ∈ names, isFetchFail (net (jsStr ci.base_download_url ++ nm)) = false) →
      handleChunkedResponse net r =
        (.ok (.nestedObj
            { nd with
              data := flatMapL
                (fun nm => fetchedRecords (net (jsStr ci.base_download_url ++ nm))) names }),
         names.map (fun nm => jsStr ci.base_download_url ++ nm)))
  ∧ (∀ (net : Net α β) (r : Response α β) (ci : ChunkInfo) (names : List String),
      r.chunk_info = some ci →
      hasNestedChunkInfo r = false →
      (truthyStr ci.chunk_file_name && ci.total_chunks = some 1) = false →
      ci.chunk_file_names = some names →
      names ≠ [] →
      (∀ nm ∈ names, isFetchFail (net (jsStr ci.base_download_url ++ nm)) = false) →
      handleChunkedResponse net r =
        (.ok (.respObj
            { r with
              data := some (.records (flatMapL
                (fun nm => fetchedRecords (net (jsStr ci.base_download_url ++ nm))) names)) }),
         names.map (fun nm => jsStr ci.base_download_url ++ nm))) := by
  constructor
  · intro net r nd ci names hl hd hci hz hnames hne hok
    rw [resolve_eq_nested net r nd ci hl hd hci]
    unfold handleNested
    have htl : truthyList ci.chunk_file_names = true := by
      simp [truthyList, hnames, hne]
    simp only [hz, Bool.false_eq_true, if_false, htl, if_true]
    rw [hnames]
    simp only [Option.getD_some]
    rw [fetchNamedChunks_allOk net (jsStr ci.base_download_url) names hok]
  · intro net r ci names hci hnn hsingle hnames hne hok
    have hb1 : (truthyStr r.link && r.chunk_info.isNone) = false := by
      simp [hci]
    rw [resolve_eq_legacy net r hb1 hnn]
    unfold handleLegacy
    rw [hci]
    have htl : truthyList ci.chunk_file_names = true := by
      simp [truthyList, hnames, hne]
    simp only [hsingle, Bool.false_eq_true, if_false, htl, if_true]
    rw [hnames]
    simp only [Option.getD_some]
    rw [fetchNamedChunks_allOk net (jsStr ci.base_download_url) names hok]

/-- Witness for C4: both branches at concrete inputs — the nested strategy
over `["a.json", "b.json"]` and the legacy named branch over the same
list, with all fetches succeeding. -/
theorem namedChunks_order_and_concat_witness :
    handleChunkedResponse netAB rNestedOnly =
      (.ok (.nestedObj
          { ndNested with
            data := flatMapL
              (fun nm => fetchedRecords (netAB ("http://s3/" ++ nm))) ["a.json", "b.json"] }),
       ["a.json", "b.json"].map (fun nm => "http://s3/" ++ nm)) ∧
    handleChunkedResponse netAB rTopNamed =
      (.ok (.respObj
          { rTopNamed with
            data := some (.records (flatMapL
              (fun nm => fetchedRecords (netAB ("http://s3/" ++ nm))) ["a.json", "b.json"])) }),
       ["a.json", "b.json"].map (fun nm => "http://s3/" ++ nm)) :=
  ⟨namedChunks_order_and_concat.1 netAB rNestedOnly ndNested ciNested ["a.json", "b.json"]
     rfl rfl rfl (by decide) rfl (by decide) (by decide),
   namedChunks_order_and_concat.2 netAB rTopNamed ciNested ["a.json", "b.json"]
     rfl rfl (by decide) rfl (by decide) (by decide)⟩

/-- C5: a response with no `link` and no `chunk_info` (top-level or nested
under `data`) passes through resolution unchanged, with zero network
calls — resolving an already-resolved payload is a no-op, both through the
resolver and through the dispatching executor. -/
theorem resolve_passThrough (net : Net α β) (autoFlag : Bool)
    (handleChunks : Option Bool) (r : Response α β)
    (hl : r.link = none) (hc : r.chunk_info = none)
    (hn : hasNestedChunkInfo r = false) :
    handleChunkedResponse net r = (.ok (.respObj r), [])
  ∧ requestWithChunking net autoFlag handleChunks r = (.ok (.respObj r), []) := by
  constructor
  · have hb1 : (truthyStr r.link && r.chunk_info.isNone) = false := by
      simp [hl, truthyStr]
    rw [resolve_eq_legacy net r hb1 hn]
    unfold handleLegacy
    rw [hc]
  · unfold requestWithChunking
    simp [hl, hc, truthyStr]

/-- Witness for C5: a plain payload is returned unchanged. -/
theorem resolve_passThrough_witness :
    handleChunkedResponse netAB rPlain = (.ok (.respObj rPlain), [])
  ∧ requestWithChunking netAB true none rPlain = (.ok (.respObj rPlain), []) :=
  resolve_passThrough netAB true none rPlain rfl rfl rfl

/-- C6: when the nested `data.chunk_info` reports `num_chunks == 0` or
`rows == 0`, resolution returns the `data` object unchanged and performs
zero network calls. -/
theorem nestedEmpty_shortCircuit (net : Net α β) (r : Response α β)
    (nd : NestedData α β) (ci : ChunkInfo)
    (hl : truthyStr r.link = false)
    (hd : r.data = some (.nested nd))
    (hci : nd.chunk_info = some ci)
    (hz : ci.num_chunks = some 0 ∨ ci.rows = some 0) :
    handleChunkedResponse net r = (.ok (.nestedObj nd), []) := by
  rw [resolve_eq_nested net r nd ci hl hd hci]
  unfold handleNested
  rcases hz with h | h <;> simp [h]

/-- Witness for C6: a nested descriptor with `rows = 0` short-circuits. -/
theorem nestedEmpty_shortCircuit_witness :
    (ciZeroRows.num_chunks = some 0 ∨ ciZeroRows.rows = some 0) ∧
    handleChunkedResponse netAB rZeroRows = (.ok (.nestedObj ndZeroRows), []) :=
  ⟨Or.inr rfl,
   nestedEmpty_shortCircuit netAB rZeroRows ndZeroRows ciZeroRows rfl rfl rfl (Or.inr rfl)⟩

/-- C7: after a request, the limiter suspends exactly when the remaining
header is present with numeric value ≤ 1 and the reset header yields a
positive `reset*1000 - now`, and then for exactly that duration; when the
remaining header is absent it takes no action. -/
theorem rateLimitDelay_spec (remaining reset : Option Int) (now : Int) :
    (∀ w, rateLimitDelay remaining reset now = some w ↔
      ((∃ rem, remaining = some rem ∧ rem ≤ 1) ∧
       (∃ rst, reset = some rst ∧ w = rst * 1000 - now ∧ 0 < w)))
  ∧ (remaining = none → rateLimitDelay remaining reset now = none) := by
  constructor
  · intro w
    cases remaining with
    | none => simp [rateLimitDelay]
    | some rem =>
      cases reset with
      | none => simp [rateLimitDelay]
      | some rst =>
        simp only [rateLimitDelay]
        split_ifs with h1 h2 <;> (first | (simp_all; omega) | simp_all)
  · intro h
    subst h
    cases reset with
    | none => rfl
    | some rst => rfl

/-- Witness for C7: `remaining = 1`, reset 5 seconds ahead of `now = 0` —
the limiter suspends for exactly 5000 ms; with `remaining` absent it does
nothing. -/
theorem rateLimitDelay_spec_witness :
    (rateLimitDelay (some 1) (some 5) 0 = some 5000 ↔
      ((∃ rem, (some (1 : Int)) = some rem ∧ rem ≤ 1) ∧
       (∃ rst, (some (5 : Int)) = some rst ∧ (5000 : Int) = rst * 1000 - 0 ∧ (0 : Int) < 5000)))
  ∧ rateLimitDelay none (some 5) 0 = none :=
  ⟨(rateLimitDelay_spec (some 1) (some 5) 0).1 5000,
   (rateLimitDelay_spec none (some 5) 0).2 rfl⟩

/-- C8: the credential hasher lower-cases the email, concatenates
`password ++ lowercasedEmail`, digests the UTF-8 bytes with SHA-256 and
base64-encodes the digest, so `USER@Example.com` and `user@example.com`
yield the same digest for any password; and `authenticate` fails with a
validation error, before any network call, whenever the email fails the
schema's validity check. -/
theorem authenticate_digest_properties :
    (∀ p : String, authHash p "USER@Example.com" = authHash p "user@example.com")
  ∧ (∀ (validEmail : String → Bool) (baseUrl : String) (req : AuthRequest),
      validEmail req.email = false →
      authenticate validEmail baseUrl req = (.error .validation, [])) := by
  constructor
  · intro p
    unfold authHash
    have h : jsToLowerCase "USER@Example.com" = jsToLowerCase "user@example.com" := by
      decide
    rw [h]
  · intro ve baseUrl req h
    simp [authenticate, h]

/-- Witness for C8: the case-normalization identity at password `"p"`, and
a validation failure (empty email under a non-emptiness check) producing
the validation error with an empty network trace. -/
theorem authenticate_digest_properties_witness :
    authHash "p" "USER@Example.com" = authHash "p" "user@example.com"
  ∧ emailNonEmpty "" = false
  ∧ authenticate emailNonEmpty "https://members-ng.iracing.com" ⟨"", "pw"⟩ =
      (.error .validation, []) :=
  ⟨authenticate_digest_properties.1 "p", by decide,
   authenticate_digest_properties.2 emailNonEmpty "https://members-ng.iracing.com" ⟨"", "pw"⟩
     (by decide)⟩

/-- C9: for a response carrying a (truthy) `link` and no `chunk_info`, the
resolver fetches exactly the linked URL; a non-success status is fatal; a
CSV content type returns the raw text body (a string, not a parsed
structure); any other content type returns the decoded JSON body. -/
theorem linkResponse_resolution (net : Net α β) (r : Response α β) (url : String)
    (hlink : r.link = some url) (hne : url ≠ "") (hci : r.chunk_info = none) :
    (handleChunkedResponse net r).2 = [url]
  ∧ (∀ h, net url = .resp h → h.ok = false →
      (handleChunkedResponse net r).1 = .error (.http h.status))
  ∧ (∀ h, net url = .resp h → h.ok = true → ctHasCsv h.contentType = true →
      (handleChunkedResponse net r).1 = .ok (.text h.textBody))
  ∧ (∀ h, net url = .resp h → h.ok = true → ctHasCsv h.contentType = false →
      (handleChunkedResponse net r).1 = .ok (.json h.jsonVal)) := by
  have hemp : url.isEmpty = false := by
    cases hemp0 : url.isEmpty with
    | false => rfl
    | true => exact absurd ((String.isEmpty_iff url).mp hemp0) hne
  have hb1 : (truthyStr r.link && r.chunk_info.isNone) = true := by
    simp [hlink, hci, truthyStr, hemp]
  have hmain : handleChunkedResponse net r = handleLink net url := by
    unfold handleChunkedResponse
    rw [hb1]
    simp [hlink, jsStr]
  refine ⟨?_, ?_, ?_, ?_⟩
  · rw [hmain]
    unfold handleLink
    cases hnet : net url with
    | exn => rfl
    | resp h => by_cases hok : h.ok = true <;> by_cases hcsv : ctHasCsv h.contentType = true <;>
        simp [hnet, hok, hcsv]
  · intro h hnet hok
    rw [hmain]
    unfold handleLink
    simp [hnet, hok]
  · intro h hnet hok hcsv
    rw [hmain]
    unfold handleLink
    simp [hnet, hok, hcsv]
  · intro h hnet hok hcsv
    rw [hmain]
    unfold handleLink
    simp [hnet, hok, hcsv]

/-- Witness for C9: a link-only response whose target serves
`text/csv; charset=utf-8` resolves to the raw CSV text. -/
theorem linkResponse_resolution_witness :
    (handleChunkedResponse netCsv rLinkOnly).2 = ["http://s3/file"]
  ∧ (handleChunkedResponse netCsv rLinkOnly).1 = .ok (.text "a,b\n1,2") :=
  ⟨(linkResponse_resolution netCsv rLinkOnly "http://s3/file" rfl (by decide) rfl).1,
   (linkResponse_resolution netCsv rLinkOnly "http://s3/file" rfl (by decide) rfl).2.2.1
     ⟨true, 200, some "text/csv; charset=utf-8", "a,b\n1,2", [], "j"⟩ rfl rfl (by decide)⟩

/-- C10: in the legacy fallback branch, a top-level `chunk_info` with one
or more chunks but neither a non-empty file-name list nor a base
`chunk_file_name` makes resolution throw (the extension-stripping
dereference of the absent field happens outside the per-chunk try/catch),
before any fetch: the lenient per-chunk policy never applies. -/
theorem fallback_missingBaseName_throws (net : Net α β) (r : Response α β)
    (ci : ChunkInfo) (n : Nat)
    (hci : r.chunk_info = some ci)
    (hnn : hasNestedChunkInfo r = false)
    (hname : ci.chunk_file_name = none)
    (hnames : truthyList ci.chunk_file_names = false)
    (htot : ci.total_chunks = some n)
    (hpos : 1 ≤ n) :
    handleChunkedResponse net r = (.error .typeError, []) := by
  have hb1 : (truthyStr r.link && r.chunk_info.isNone) = false := by
    simp [hci]
  rw [resolve_eq_legacy net r hb1 hnn]
  unfold handleLegacy
  rw [hci]
  have hsingle : (truthyStr ci.chunk_file_name && ci.total_chunks = some 1) = false := by
    simp [hname, truthyStr]
  simp only [hsingle, Bool.false_eq_true, if_false, hnames]
  rw [hname, htot]
  simp only [Option.getD_some]
  obtain ⟨k, rfl⟩ : ∃ k, n = k + 1 := ⟨n - 1, by omega⟩
  rfl

/-- Witness for C10: `total_chunks = 2` with no file names at all —
resolution throws the TypeError with zero fetches. -/
theorem fallback_missingBaseName_throws_witness :
    ciNoName.chunk_file_name = none ∧
    ciNoName.total_chunks = some 2 ∧
    handleChunkedResponse netAB rNoName = (.error .typeError, []) :=
  ⟨rfl, rfl,
   fallback_missingBaseName_throws netAB rNoName ciNoName 2 rfl rfl rfl (by decide) rfl
     (by decide)⟩

end ClaimTheorems

end IracingSDK
